import Mathlib

/-!
# db_explorer: a schema-driven CRUD API over a relational database

A shallow embedding of `db_explorer.go`.  The handlers are pure functions from
the schema snapshot (`DBHandler`), the path variables, the form values and the
decoded request body to a `Trace`: the statements handed to the database, in
order, and the reply written to the client.

Conventions of the embedding.

* A Go `map[string]T` is an association list `GoMap T` with `mapGet` as the
  index expression.  A `range` loop visits the entries in list order, so
  quantifying over all lists covers every iteration order of the Go map.
* A Go value of type `any` is a `GoValue`.
* `*sql.DB` is a record of two functions (`SqlDB`); the rows of a query are
  not modelled, only whether the query failed.
* A run-time panic (nil-map assignment, slice bounds out of range, nil
  dereference) is the reply `Reply.Panic`.
* Writes to the `http.ResponseWriter` always succeed.  `http.Error(w, msg, code)`
  is `Reply.Error msg code`; the newline that `net/http` appends to `msg`
  is not part of the model.
-/

namespace DbExplorer

/-! ## Values and maps -/

/-- A Go value of static type `any`, as the handlers meet it: what
`encoding/json` decodes into an `interface{}` (nil, bool, float64, string,
slices and maps), a Go `int`, and the pointer made by `new(interface{})`. -/
inductive GoValue where
  | nil
  | int (n : Int)
  | float64 (q : Rat)
  | string (s : String)
  | bool (b : Bool)
  | composite (json : String)
  | newInterface
  deriving DecidableEq

/-- A Go `map[string]α`; list order stands for the iteration order. -/
abbrev GoMap (α : Type) := List (String × α)

/-- The index expression `v, ok := m[key]`, with `none` for `ok = false`. -/
def mapGet {α : Type} : GoMap α → String → Option α
  | [], _ => none
  | (k, v) :: rest, key => if k = key then some v else mapGet rest key

/-- The assignment `m[key] = v` on a non-nil map. -/
def mapSet {α : Type} : GoMap α → String → α → GoMap α
  | [], key, v => [(key, v)]
  | (k, w) :: rest, key, v =>
    if k = key then (k, v) :: rest else (k, w) :: mapSet rest key v

/-- The keys of a map in iteration order: `for key, _ := range m`. -/
def mapKeys {α : Type} (m : GoMap α) : List String := m.map Prod.fst

/-! ## The database connection -/

/-- An `sql.Result`: the two calls the handlers make on it. -/
structure SqlResult where
  LastInsertId : Except String Int
  RowsAffected : Except String Int

/-- The connection `*sql.DB`.  `Query` reports only whether the query failed
(`Except.error` carries `err.Error()`); `Exec` returns the `sql.Result`. -/
structure SqlDB where
  Query : String → List GoValue → Except String Unit
  Exec : String → List GoValue → Except String SqlResult

/-- The handler state: the connection and the schema snapshot. -/
structure DBHandler where
  DB : SqlDB
  tables : GoMap Bool
  tableFields : GoMap (GoMap (GoMap String))

/-- One call of `db.DB.Query` or `db.DB.Exec`. -/
inductive Stmt where
  | Query (sql : String) (args : List GoValue)
  | Exec (sql : String) (args : List GoValue)
  deriving DecidableEq

/-- What the handler sends back.
`Error msg code` is `http.Error(w, msg, code)`; `Write body` is `w.Write(body)`
with the implicit status 200; `Records` is the reply that the read handlers
render from the rows of a successful query; `Panic` is a run-time panic. -/
inductive Reply where
  | Error (msg : String) (code : Nat)
  | Write (body : String)
  | Records
  | Panic
  deriving DecidableEq

/-- The observable behaviour of one request. -/
structure Trace where
  sql : List Stmt
  reply : Reply
  deriving DecidableEq

/-- The constant `http.StatusBadRequest`. -/
def StatusBadRequest : Nat := 400

/-- The constant `http.StatusNotFound`. -/
def StatusNotFound : Nat := 404

/-- The constant `http.StatusInternalServerError`. -/
def StatusInternalServerError : Nat := 500

/-! ## Library functions used by the handlers -/

/-- Whether `sub` is an initial segment of `s`. -/
def beginsWith : List Char → List Char → Bool
  | _, [] => true
  | [], _ :: _ => false
  | c :: s, d :: sub => c = d && beginsWith s sub

/-- Whether `sub` occurs in `s` as a contiguous block. -/
def containsChars : List Char → List Char → Bool
  | [], sub => beginsWith [] sub
  | c :: s, sub => beginsWith (c :: s) sub || containsChars s sub

/-- The library call `strings.Contains(s, substr)`. -/
def Contains (s substr : String) : Bool := containsChars s.data substr.data

/-- The value of a run of decimal digits. -/
def digitsValue (ds : List Char) : Nat :=
  ds.foldl (fun acc d => acc * 10 + (d.toNat - 48)) 0

/-- The text after an optional leading sign, and whether the sign was `-`. -/
def splitSign : List Char → Bool × List Char
  | [] => (false, [])
  | c :: rest =>
    if c = '+' then (false, rest)
    else if c = '-' then (true, rest)
    else (false, c :: rest)

/-- The library call `strconv.Atoi(s)` with a 64-bit `int`: an optional sign
followed by one or more decimal digits, the value within the range of `int`;
anything else is an error (`none`). -/
def Atoi (s : String) : Option Int :=
  let (neg, ds) := splitSign s.data
  if ds = [] then none
  else if !ds.all Char.isDigit then none
  else
    let un := digitsValue ds
    if !neg && un ≥ 2 ^ 63 then none
    else if neg && un > 2 ^ 63 then none
    else some (if neg then -(un : Int) else (un : Int))

/-- The library call `strconv.Itoa(n)`. -/
def Itoa (n : Int) : String := toString n

/-- The slice expression `s[:len(s)-1]`: a panic (`none`) on the empty string,
otherwise `s` without its last byte.  Every string the handlers slice ends in
an ASCII character (`,` or `T`), so the last byte is the last character. -/
def sliceEnd (s : String) : Option String :=
  if s.data = [] then none else some ⟨s.data.dropLast⟩

/-! ## Schema catalog -/

/-- DoesTableExist check for existing table: `db.tables[tableName]`. -/
def DoesTableExist (db : DBHandler) (tableName : String) : Bool :=
  (mapGet db.tables tableName).getD false

/-- The field map `db.tableFields[tableName]` (the nil map when absent). -/
def fieldsOf (db : DBHandler) (tableName : String) : GoMap (GoMap String) :=
  (mapGet db.tableFields tableName).getD []

/-- The parameter `db.tableFields[tableName][field][param]` (`""` when absent). -/
def fieldParam (db : DBHandler) (tableName field param : String) : String :=
  (mapGet ((mapGet (fieldsOf db tableName) field).getD []) param).getD ""

/-- The loop of `SearchPrimaryKey` over the field names in iteration order. -/
def SearchPrimaryKey.loop (db : DBHandler) (tableName : String) : List String → String × Bool
  | [] => ("", false)
  | field :: rest =>
    if fieldParam db tableName field "Key" = "PRI" then (field, true)
    else SearchPrimaryKey.loop db tableName rest

/-- The first field, in iteration order, whose `Key` is `PRI`. -/
def SearchPrimaryKey (db : DBHandler) (tableName : String) : String × Bool :=
  SearchPrimaryKey.loop db tableName (mapKeys (fieldsOf db tableName))

/-! ## Type coercion rules -/

/-- The text-like test shared by `DefaultValueByType` and `TypeMatch`. -/
def isTextType (typeName : String) : Bool :=
  typeName = "text" || typeName = "char" || Contains typeName "varchar"

/-- The value that `PutNewLine` binds for an omitted non-nullable column. -/
def DefaultValueByType (typeName : String) : GoValue :=
  if typeName = "int" then GoValue.int 0
  else if isTextType typeName then GoValue.string ""
  else GoValue.newInterface

/-- Whether `placeholder` fits a column of type `typeName`; `EditLine` passes
`Null == "NO"` as `nullPermisson`.  `placeholder.(int)` holds for a Go `int`
only, `placeholder.(string)` for a Go `string` only. -/
def TypeMatch (typeName : String) (placeholder : GoValue) (nullPermisson : Bool) : Bool :=
  if typeName = "int" then
    match placeholder with
    | GoValue.int _ => true
    | _ => false
  else if isTextType typeName then
    if placeholder = GoValue.nil && nullPermisson then false
    else if placeholder ≠ GoValue.nil then
      match placeholder with
      | GoValue.string _ => true
      | _ => false
    else true
  else false

/-! ## Request handlers -/

/-- The reply `http.Error(w, "{\"error\":\"unknown table\"}", http.StatusNotFound)`. -/
def unknownTable : Reply :=
  Reply.Error "\x7b\"error\":\"unknown table\"\x7d" StatusNotFound

/-- The reply `http.Error(w, "{\"error\":\"not found primary key\"}", http.StatusNotFound)`. -/
def notFoundPrimaryKey : Reply :=
  Reply.Error "\x7b\"error\":\"not found primary key\"\x7d" StatusNotFound

/-- The reply
`http.Error(w, fmt.Sprintf("{\"error\":\"field %s have invalid type\"}", field), http.StatusBadRequest)`. -/
def invalidType (field : String) : Reply :=
  Reply.Error ("\x7b\"error\":\"field " ++ field ++ " have invalid type\"\x7d") StatusBadRequest

/-- Lines 191-197 of `ShowTablesWithParams`: the two form values, each replaced
by its default when `strconv.Atoi` rejects it. -/
def ShowTablesWithParams.limitOffset (limit offset : String) : String × String :=
  let limit := if (Atoi limit).isNone then "5" else limit
  let offset := if (Atoi offset).isNone then "0" else offset
  (limit, offset)

/-- The text `fmt.Sprintf("SELECT * FROM %s LIMIT  %s OFFSET %s", tableName, limit, offset)`. -/
def ShowTablesWithParams.sqlQuery (tableName limit offset : String) : String :=
  "SELECT * FROM " ++ tableName ++ " LIMIT  " ++ limit ++ " OFFSET " ++ offset

/-- ShowTablesWithParams returns json records based on parameters.
`limit` and `offset` are `r.FormValue("limit")` and `r.FormValue("offset")`
(`""` when the parameter is absent). -/
def ShowTablesWithParams (db : DBHandler) (tableName limit offset : String) : Trace :=
  if !DoesTableExist db tableName then ⟨[], unknownTable⟩
  else
    let lo := ShowTablesWithParams.limitOffset limit offset
    let sqlQuery := ShowTablesWithParams.sqlQuery tableName lo.1 lo.2
    match db.DB.Query sqlQuery [] with
    | Except.error err => ⟨[Stmt.Query sqlQuery []], Reply.Error err StatusInternalServerError⟩
    | Except.ok _ => ⟨[Stmt.Query sqlQuery []], Reply.Records⟩

/-- ShowLine return record by primary key.  A failed query leaves `rows` nil,
and the handler panics on it. -/
def ShowLine (db : DBHandler) (tableName id : String) : Trace :=
  if !DoesTableExist db tableName then ⟨[], unknownTable⟩
  else
    let (keyName, ok) := SearchPrimaryKey db tableName
    if !ok then ⟨[], notFoundPrimaryKey⟩
    else
      let sqlQuery := "SELECT * FROM " ++ tableName ++ " WHERE " ++ keyName ++ " = ?"
      match db.DB.Query sqlQuery [GoValue.string id] with
      | Except.error _ => ⟨[Stmt.Query sqlQuery [GoValue.string id]], Reply.Panic⟩
      | Except.ok _ => ⟨[Stmt.Query sqlQuery [GoValue.string id]], Reply.Records⟩

/-- The variables of the loop in `PutNewLine`.  `objects` is `none` for the
nil map that a failed or absent decode leaves behind. -/
structure InsertState where
  objects : Option (GoMap GoValue)
  fields : String
  qmark : String
  placeholders : List GoValue
  deriving DecidableEq

/-- The read `objects[field]` on a possibly nil map, with `none` for `ok = false`. -/
def objectsGet (objects : Option (GoMap GoValue)) (field : String) : Option GoValue :=
  match objects with
  | none => none
  | some m => mapGet m field

/-- Lines 347-349: the field joins the column list, a placeholder mark is
added and `objects[field]` (nil when absent) becomes a bound parameter. -/
def PutNewLine.push (field : String) (st : InsertState) : InsertState :=
  { st with
    fields := st.fields ++ field ++ ","
    qmark := st.qmark ++ " ?,"
    placeholders := st.placeholders ++ [(objectsGet st.objects field).getD GoValue.nil] }

/-- The loop of `PutNewLine` over the field names in iteration order; `none`
is the panic of an assignment to an entry in a nil map. -/
def PutNewLine.loop (db : DBHandler) (tableName : String) :
    List String → InsertState → Option InsertState
  | [], st => some st
  | field :: rest, st =>
    if fieldParam db tableName field "Extra" = "auto_increment" then
      PutNewLine.loop db tableName rest st
    else if (objectsGet st.objects field).isNone ∧ fieldParam db tableName field "Null" = "NO" then
      match st.objects with
      | none => none
      | some m =>
        let v := DefaultValueByType (fieldParam db tableName field "Type")
        PutNewLine.loop db tableName rest
          (PutNewLine.push field { st with objects := some (mapSet m field v) })
    else if fieldParam db tableName field "Null" = "YES" then
      PutNewLine.loop db tableName rest st
    else
      PutNewLine.loop db tableName rest (PutNewLine.push field st)

/-- The text `fmt.Sprintf("INSERT INTO %s (%s) VALUES (%s)", tableName, fields, qmark)`. -/
def PutNewLine.sqlExec (tableName fields qmark : String) : String :=
  "INSERT INTO " ++ tableName ++ " (" ++ fields ++ ") VALUES (" ++ qmark ++ ")"

/-- The handler of `PUT /{table}/`.  `objects` is the map that
`json.NewDecoder(r.Body).Decode(&objects)` leaves in the variable: `none` (nil)
when the body is empty, is not valid JSON or is not a JSON object.  The key
name of the reply comes from a second range over the field map, taken here in
the same order as the first; the two can differ only on a table with several
`PRI` columns. -/
def PutNewLine (db : DBHandler) (tableName : String) (objects : Option (GoMap GoValue)) : Trace :=
  if !DoesTableExist db tableName then ⟨[], unknownTable⟩
  else
    match PutNewLine.loop db tableName (mapKeys (fieldsOf db tableName)) ⟨objects, "", "", []⟩ with
    | none => ⟨[], Reply.Panic⟩
    | some st =>
      match sliceEnd st.fields, sliceEnd st.qmark with
      | some fields, some qmark =>
        let sqlExec := PutNewLine.sqlExec tableName fields qmark
        match db.DB.Exec sqlExec st.placeholders with
        | Except.error err =>
          ⟨[Stmt.Exec sqlExec st.placeholders], Reply.Error err StatusInternalServerError⟩
        | Except.ok result =>
          match result.LastInsertId with
          | Except.error err =>
            ⟨[Stmt.Exec sqlExec st.placeholders], Reply.Error err StatusInternalServerError⟩
          | Except.ok lastID =>
            let keyName := (SearchPrimaryKey db tableName).1
            ⟨[Stmt.Exec sqlExec st.placeholders],
              Reply.Write ("\x7b\"response\":\x7b\"" ++ keyName ++ "\":" ++ Itoa lastID ++ "\x7d\x7d\n")⟩
      | _, _ => ⟨[], Reply.Panic⟩

/-- The variables of the loop in `EditLine`. -/
structure UpdateState where
  sqlExec : String
  placeholders : List GoValue
  deriving DecidableEq

/-- The loop of `EditLine` over the body in iteration order; `Except.error` is
the reply of an early `return`. -/
def EditLine.loop (db : DBHandler) (tableName keyName : String) :
    GoMap GoValue → UpdateState → Except Reply UpdateState
  | [], st => Except.ok st
  | (field, placeholder) :: rest, st =>
    if field = keyName then Except.error (invalidType keyName)
    else if (mapGet (fieldsOf db tableName) field).isNone then
      EditLine.loop db tableName keyName rest st
    else
      let typeName := fieldParam db tableName field "Type"
      if TypeMatch typeName placeholder (fieldParam db tableName field "Null" = "NO") then
        EditLine.loop db tableName keyName rest
          ⟨st.sqlExec ++ " " ++ field ++ " = ?,", st.placeholders ++ [placeholder]⟩
      else Except.error (invalidType field)

/-- The handler of `POST /{table}/{id}`.  `objects` is the decoded body as in
`PutNewLine`; a nil map is ranged over like an empty one.  A failed `Exec`
leaves `result` nil, and the handler panics on it. -/
def EditLine (db : DBHandler) (tableName id : String) (objects : Option (GoMap GoValue)) : Trace :=
  let (keyName, ok) := SearchPrimaryKey db tableName
  if !ok then ⟨[], notFoundPrimaryKey⟩
  else if !DoesTableExist db tableName then ⟨[], unknownTable⟩
  else
    match EditLine.loop db tableName keyName (objects.getD []) ⟨"UPDATE " ++ tableName ++ " SET", []⟩ with
    | Except.error reply => ⟨[], reply⟩
    | Except.ok st =>
      match sliceEnd st.sqlExec with
      | none => ⟨[], Reply.Panic⟩
      | some cut =>
        let sqlExec := cut ++ (" WHERE " ++ keyName ++ " = ?")
        let placeholders := st.placeholders ++ [GoValue.string id]
        match db.DB.Exec sqlExec placeholders with
        | Except.error _ => ⟨[Stmt.Exec sqlExec placeholders], Reply.Panic⟩
        | Except.ok result =>
          let count := match result.RowsAffected with
            | Except.ok n => n
            | Except.error _ => 0
          ⟨[Stmt.Exec sqlExec placeholders],
            Reply.Write ("\x7b\"response\":\x7b\"updated\":" ++ Itoa count ++ "\x7d\x7d\n")⟩

/-- The handler of `DELETE /{table}/{id}`. -/
def DeleteLine (db : DBHandler) (tableName id : String) : Trace :=
  if !DoesTableExist db tableName then ⟨[], unknownTable⟩
  else
    let sqlExec := "DELETE FROM " ++ tableName ++ " WHERE id = ?"
    match db.DB.Exec sqlExec [GoValue.string id] with
    | Except.error err => ⟨[Stmt.Exec sqlExec [GoValue.string id]], Reply.Error err StatusNotFound⟩
    | Except.ok result =>
      let count := match result.RowsAffected with
        | Except.ok n => n
        | Except.error _ => 0
      ⟨[Stmt.Exec sqlExec [GoValue.string id]],
        Reply.Write ("\x7b\"response\":\x7b\"deleted\":" ++ Itoa count ++ "\x7d\x7d\n")⟩

/-! ## A sample catalog -/

/-- A connection on which every query returns rows and every statement
affects one row and reports the generated key 1. -/
def sampleConn : SqlDB :=
  { Query := fun _ _ => Except.ok ()
    Exec := fun _ _ => Except.ok ⟨Except.ok 1, Except.ok 1⟩ }

/-- The columns of the sample table `items`. -/
def itemsFields : GoMap (GoMap String) :=
  [ ("id", [("Type", "int"), ("Null", "NO"), ("Key", "PRI"), ("Default", ""), ("Extra", "auto_increment")]),
    ("title", [("Type", "varchar(255)"), ("Null", "NO"), ("Key", ""), ("Default", ""), ("Extra", "")]),
    ("description", [("Type", "text"), ("Null", "YES"), ("Key", ""), ("Default", ""), ("Extra", "")]) ]

/-- The columns of the sample table `notes`: apart from the generated key,
every column is nullable. -/
def notesFields : GoMap (GoMap String) :=
  [ ("id", [("Type", "int"), ("Null", "NO"), ("Key", "PRI"), ("Default", ""), ("Extra", "auto_increment")]),
    ("body", [("Type", "text"), ("Null", "YES"), ("Key", ""), ("Default", ""), ("Extra", "")]) ]

/-- A snapshot as `InitTables` and `InitTableFields` build it for a database
with the tables `items` and `notes`. -/
def sampleDB : DBHandler :=
  { DB := sampleConn
    tables := [("items", true), ("notes", true)]
    tableFields := [("items", itemsFields), ("notes", notesFields)] }

/-! ## Predicates used in the statements -/

/-- The field names a column of the table and `TypeMatch`, called as
`EditLine` calls it, does not accept the value for the column's type. -/
def rejects (db : DBHandler) (tableName field : String) (v : GoValue) : Bool :=
  (mapGet (fieldsOf db tableName) field).isSome &&
    !TypeMatch (fieldParam db tableName field "Type") v
      (fieldParam db tableName field "Null" = "NO")

/-- The text is one or more decimal digits and nothing else: the decimal
text of a non-negative integer. -/
def digitsOnly (s : String) : Bool :=
  !s.data.isEmpty && s.data.all Char.isDigit

/-- The text is an optional sign, `+` or `-`, followed by one or more decimal
digits and nothing else. -/
def signedDigits (s : String) : Bool :=
  match s.data with
  | [] => false
  | c :: rest =>
    if c = '+' ∨ c = '-' then !rest.isEmpty && rest.all Char.isDigit
    else (c :: rest).all Char.isDigit

/-! # Theorems -/

/-! ## Lemmas on maps and on the catalog -/

/-- A key that the iteration visits is found by the index expression. -/
theorem mapGet_isSome_of_mem {α : Type} (m : GoMap α) (k : String) (h : k ∈ mapKeys m) :
    (mapGet m k).isSome = true := by
  induction m with
  | nil => simp [mapKeys] at h
  | cons p rest ih =>
    obtain ⟨k1, v⟩ := p
    simp only [mapKeys, List.map_cons, List.mem_cons] at h
    unfold mapGet
    by_cases hk : k1 = k
    · simp [hk]
    · simp only [hk, if_false]
      rcases h with h | h
      · exact absurd h.symm hk
      · exact ih (by simpa [mapKeys] using h)

/-- A key that the iteration does not visit is not in the map. -/
theorem mapGet_eq_none_of_not_mem {α : Type} (m : GoMap α) (k : String) (h : k ∉ mapKeys m) :
    mapGet m k = none := by
  induction m with
  | nil => rfl
  | cons p rest ih =>
    obtain ⟨k1, v⟩ := p
    simp only [mapKeys, List.map_cons, List.mem_cons, not_or] at h
    unfold mapGet
    rw [if_neg (fun e => h.1 e.symm)]
    exact ih (by simpa [mapKeys] using h.2)

/-- The key that the loop of `SearchPrimaryKey` returns is one it visited. -/
theorem SearchPrimaryKey.loop_mem (db : DBHandler) (tableName keyName : String) :
    ∀ l : List String, SearchPrimaryKey.loop db tableName l = (keyName, true) → keyName ∈ l := by
  intro l
  induction l with
  | nil => intro h; simp [SearchPrimaryKey.loop] at h
  | cons field rest ih =>
    intro h
    unfold SearchPrimaryKey.loop at h
    split at h
    · simp only [Prod.mk.injEq, and_true] at h
      simp [h]
    · exact List.mem_cons_of_mem _ (ih h)

/-- The primary key that `SearchPrimaryKey` finds is a column of the table. -/
theorem SearchPrimaryKey_known (db : DBHandler) (tableName keyName : String)
    (h : SearchPrimaryKey db tableName = (keyName, true)) :
    (mapGet (fieldsOf db tableName) keyName).isSome = true :=
  mapGet_isSome_of_mem _ _ (SearchPrimaryKey.loop_mem db tableName keyName _ h)

/-! ## Lemmas on the loop of `EditLine` -/

/-- A field that is neither the primary key nor a column leaves the loop's
variables as they are. -/
theorem EditLine.loop_skip (db : DBHandler) (tableName keyName f : String) (v : GoValue)
    (hf : mapGet (fieldsOf db tableName) f = none) (hk : f ≠ keyName) :
    ∀ (pre post : GoMap GoValue) (st : UpdateState),
      EditLine.loop db tableName keyName (pre ++ (f, v) :: post) st
        = EditLine.loop db tableName keyName (pre ++ post) st := by
  intro pre
  induction pre with
  | nil =>
    intro post st
    simp only [List.nil_append]
    rw [EditLine.loop]
    simp [hk, hf]
  | cons p pre ih =>
    intro post st
    obtain ⟨g, w⟩ := p
    simp only [List.cons_append]
    rw [EditLine.loop, EditLine.loop]
    simp only [ih]

/-- C9.  For every table, every update body `B` (here `pre ++ post`, in any
iteration order) and every field `f` that is not a column of the table,
`EditLine` on `B` with `f` added at any place of the iteration, with any value,
leaves the same trace as on `B` alone: the same SQL text, the same bound
parameters and the same reply. -/
theorem C9_EditLine_ignores_unknown_field (db : DBHandler) (tableName id f : String)
    (v : GoValue) (pre post : GoMap GoValue)
    (hf : mapGet (fieldsOf db tableName) f = none) :
    EditLine db tableName id (some (pre ++ (f, v) :: post))
      = EditLine db tableName id (some (pre ++ post)) := by
  unfold EditLine
  rcases h : SearchPrimaryKey db tableName with ⟨keyName, ok⟩
  cases ok with
  | false => simp
  | true =>
    have hk : f ≠ keyName := by
      intro e
      have := SearchPrimaryKey_known db tableName keyName h
      rw [← e, hf] at this
      simp at this
    simp only [Option.getD_some]
    rw [EditLine.loop_skip db tableName keyName f v hf hk]

/-- C9 at the table `items`, with the unknown field `zzz` between two columns. -/
theorem C9_witness :
    mapGet (fieldsOf sampleDB "items") "zzz" = none ∧
    EditLine sampleDB "items" "3"
        (some ([("title", GoValue.string "a")] ++ ("zzz", GoValue.bool true) :: [("description", GoValue.nil)]))
      = EditLine sampleDB "items" "3"
        (some ([("title", GoValue.string "a")] ++ [("description", GoValue.nil)])) :=
  ⟨by decide, C9_EditLine_ignores_unknown_field sampleDB "items" "3" "zzz" (GoValue.bool true)
    [("title", GoValue.string "a")] [("description", GoValue.nil)] (by decide)⟩

/-- Fields that precede the primary key and are not rejected are consumed by
the loop, which then goes on with the rest of the body. -/
theorem EditLine.loop_accepts (db : DBHandler) (tableName keyName : String)
    (rest : GoMap GoValue) :
    ∀ (pre : GoMap GoValue) (st : UpdateState), keyName ∉ mapKeys pre →
      (∀ p ∈ pre, rejects db tableName p.1 p.2 = false) →
      ∃ st1, EditLine.loop db tableName keyName (pre ++ rest) st
        = EditLine.loop db tableName keyName rest st1 := by
  intro pre
  induction pre with
  | nil => intro st _ _; exact ⟨st, rfl⟩
  | cons p pre ih =>
    intro st hkey hacc
    obtain ⟨g, w⟩ := p
    simp only [mapKeys, List.map_cons, List.mem_cons, not_or] at hkey
    have hg : g ≠ keyName := fun e => hkey.1 e.symm
    have hpre : keyName ∉ mapKeys pre := by simpa [mapKeys] using hkey.2
    have hrest : ∀ p ∈ pre, rejects db tableName p.1 p.2 = false :=
      fun p hp => hacc p (List.mem_cons_of_mem _ hp)
    have hgw := hacc (g, w) (List.mem_cons_self _ _)
    simp only [List.cons_append]
    rw [EditLine.loop]
    simp only [hg, if_false]
    by_cases hknown : (mapGet (fieldsOf db tableName) g).isNone = true
    · simp only [hknown, if_true]
      exact ih st hpre hrest
    · simp only [hknown]
      have hsome : (mapGet (fieldsOf db tableName) g).isSome = true := by
        cases hm : mapGet (fieldsOf db tableName) g with
        | none => simp [hm] at hknown
        | some _ => rfl
      simp only [rejects, hsome, Bool.true_and, Bool.not_eq_false_eq_eq_true] at hgw
      simp only [hgw, if_true]
      exact ih _ hpre hrest

/-- When some field that precedes the primary key is rejected, the loop
returns early with the error naming a rejected field. -/
theorem EditLine.loop_rejects (db : DBHandler) (tableName keyName : String)
    (rest : GoMap GoValue) :
    ∀ (pre : GoMap GoValue) (st : UpdateState), keyName ∉ mapKeys pre →
      (∃ p ∈ pre, rejects db tableName p.1 p.2 = true) →
      ∃ p ∈ pre, rejects db tableName p.1 p.2 = true ∧
        EditLine.loop db tableName keyName (pre ++ rest) st
          = Except.error (invalidType p.1) := by
  intro pre
  induction pre with
  | nil => intro st _ h; obtain ⟨p, hp, _⟩ := h; simp at hp
  | cons p pre ih =>
    intro st hkey hrej
    obtain ⟨g, w⟩ := p
    simp only [mapKeys, List.map_cons, List.mem_cons, not_or] at hkey
    have hg : g ≠ keyName := fun e => hkey.1 e.symm
    have hpre : keyName ∉ mapKeys pre := by simpa [mapKeys] using hkey.2
    simp only [List.cons_append]
    rw [EditLine.loop]
    simp only [hg, if_false]
    by_cases hgw : rejects db tableName g w = true
    · refine ⟨(g, w), List.mem_cons_self _ _, hgw, ?_⟩
      simp only [rejects, Bool.and_eq_true, Bool.not_eq_true_eq_eq_false] at hgw
      have hnone : (mapGet (fieldsOf db tableName) g).isNone = false := by
        cases hm : mapGet (fieldsOf db tableName) g with
        | none => simp [hm] at hgw
        | some _ => rfl
      simp [hnone, hgw.2]
    · have hrej1 : ∃ p ∈ pre, rejects db tableName p.1 p.2 = true := by
        obtain ⟨p, hp, hr⟩ := hrej
        rcases List.mem_cons.mp hp with e | hp
        · subst e; exact absurd hr hgw
        · exact ⟨p, hp, hr⟩
      by_cases hknown : (mapGet (fieldsOf db tableName) g).isNone = true
      · simp only [hknown, if_true]
        obtain ⟨p, hp, hr, he⟩ := ih st hpre hrej1
        exact ⟨p, List.mem_cons_of_mem _ hp, hr, he⟩
      · simp only [hknown]
        have hsome : (mapGet (fieldsOf db tableName) g).isSome = true := by
          cases hm : mapGet (fieldsOf db tableName) g with
          | none => simp [hm] at hknown
          | some _ => rfl
        simp only [rejects, hsome, Bool.true_and, Bool.not_eq_true_eq_eq_false,
          Bool.not_eq_false] at hgw
        simp only [hgw, if_true]
        obtain ⟨p, hp, hr, he⟩ := ih _ hpre hrej1
        exact ⟨p, List.mem_cons_of_mem _ hp, hr, he⟩

/-! ## Update: the primary key and type mismatches -/

/-- C2, as the code has it.  For every existing table with a primary key and
every update body that holds the primary-key field (`pre` are the fields the
iteration visits before it, `post` those after it), `EditLine` replies with
status 400 and `{"error":"field <name> have invalid type"}` and runs no SQL
statement; `<name>` is the primary key when no field visited before it is
rejected, and otherwise a rejected field visited before it. -/
theorem C2_EditLine_primary_key_in_body (db : DBHandler) (tableName id keyName : String)
    (v : GoValue) (pre post : GoMap GoValue)
    (hexists : DoesTableExist db tableName = true)
    (hkey : SearchPrimaryKey db tableName = (keyName, true))
    (hpre : keyName ∉ mapKeys pre) :
    ∃ name,
      EditLine db tableName id (some (pre ++ (keyName, v) :: post))
        = ⟨[], Reply.Error ("\x7b\"error\":\"field " ++ name ++ " have invalid type\"\x7d") 400⟩ ∧
      ((∀ p ∈ pre, rejects db tableName p.1 p.2 = false) → name = keyName) ∧
      ((∃ p ∈ pre, rejects db tableName p.1 p.2 = true) →
        ∃ w, (name, w) ∈ pre ∧ rejects db tableName name w = true) := by
  unfold EditLine
  simp only [hkey, hexists, Bool.not_true, Bool.false_eq_true, if_false, Option.getD_some]
  by_cases hrej : ∃ p ∈ pre, rejects db tableName p.1 p.2 = true
  · obtain ⟨p, hp, hr, he⟩ :=
      EditLine.loop_rejects db tableName keyName ((keyName, v) :: post) pre
        ⟨"UPDATE " ++ tableName ++ " SET", []⟩ hpre hrej
    refine ⟨p.1, ?_, ?_, ?_⟩
    · rw [he]; rfl
    · intro hall
      obtain ⟨q, hq, hqr⟩ := hrej
      rw [hall q hq] at hqr
      exact absurd hqr (by decide)
    · intro _
      exact ⟨p.2, hp, hr⟩
  · have hall : ∀ p ∈ pre, rejects db tableName p.1 p.2 = false := by
      intro p hp
      cases hr : rejects db tableName p.1 p.2 with
      | false => rfl
      | true => exact absurd ⟨p, hp, hr⟩ hrej
    obtain ⟨st1, he⟩ :=
      EditLine.loop_accepts db tableName keyName ((keyName, v) :: post) pre
        ⟨"UPDATE " ++ tableName ++ " SET", []⟩ hpre hall
    refine ⟨keyName, ?_, fun _ => rfl, fun h => absurd h hrej⟩
    rw [he, EditLine.loop]
    simp [invalidType, StatusBadRequest]

/-- C6.  For every existing table with a primary key and every update body
without the primary-key field, if some field of the body names a column and
its value is not accepted by `TypeMatch` for that column, `EditLine` replies
with status 400 and `{"error":"field <name> have invalid type"}` for a
rejected field `<name>` of the body, and runs no SQL statement. -/
theorem C6_EditLine_type_mismatch (db : DBHandler) (tableName id keyName : String)
    (body : GoMap GoValue)
    (hexists : DoesTableExist db tableName = true)
    (hkey : SearchPrimaryKey db tableName = (keyName, true))
    (hbody : keyName ∉ mapKeys body)
    (hrej : ∃ p ∈ body, (mapGet (fieldsOf db tableName) p.1).isSome = true ∧
      TypeMatch (fieldParam db tableName p.1 "Type") p.2
        (fieldParam db tableName p.1 "Null" = "NO") = false) :
    ∃ p ∈ body, ((mapGet (fieldsOf db tableName) p.1).isSome = true ∧
      TypeMatch (fieldParam db tableName p.1 "Type") p.2
        (fieldParam db tableName p.1 "Null" = "NO") = false) ∧
      EditLine db tableName id (some body)
        = ⟨[], Reply.Error ("\x7b\"error\":\"field " ++ p.1 ++ " have invalid type\"\x7d") 400⟩ := by
  have hrej1 : ∃ p ∈ body, rejects db tableName p.1 p.2 = true := by
    obtain ⟨p, hp, h1, h2⟩ := hrej
    exact ⟨p, hp, by simp [rejects, h1, h2]⟩
  obtain ⟨p, hp, hr, he⟩ :=
    EditLine.loop_rejects db tableName keyName [] body
      ⟨"UPDATE " ++ tableName ++ " SET", []⟩ hbody hrej1
  refine ⟨p, hp, ?_, ?_⟩
  · simpa [rejects] using hr
  · unfold EditLine
    simp only [hkey, hexists, Bool.not_true, Bool.false_eq_true, if_false, Option.getD_some]
    rw [List.append_nil] at he
    rw [he]; rfl

/-! ## Listing: limit and offset -/

/-- What `strconv.Atoi` accepts is an optional sign followed by digits. -/
theorem Atoi_signedDigits (s : String) (h : Atoi s ≠ none) : signedDigits s = true := by
  unfold Atoi at h
  unfold signedDigits
  cases hs : s.data with
  | nil => simp [hs, splitSign] at h
  | cons c rest =>
    rw [hs] at h
    simp only [splitSign] at h
    by_cases h1 : c = '+'
    · simp only [h1, if_true] at h
      by_cases hr : rest = []
      · simp [hr] at h
      · by_cases hd : rest.all Char.isDigit = true
        · simp [h1, hr, hd]
        · simp [hr, hd] at h
    · simp only [h1, if_false] at h
      by_cases h2 : c = '-'
      · simp only [h2, if_true] at h
        by_cases hr : rest = []
        · simp [hr] at h
        · by_cases hd : rest.all Char.isDigit = true
          · simp [h2, hr, hd]
          · simp [hr, hd] at h
      · simp only [h2, if_false] at h
        by_cases hd : (c :: rest).all Char.isDigit = true
        · simp only [h1, h2, or_self, if_false]
          exact hd
        · simp [hd] at h

/-- The limit and the offset that reach the SQL text are signed decimal texts. -/
theorem limitOffset_signedDigits (limit offset : String) :
    signedDigits (ShowTablesWithParams.limitOffset limit offset).1 = true ∧
    signedDigits (ShowTablesWithParams.limitOffset limit offset).2 = true := by
  unfold ShowTablesWithParams.limitOffset
  constructor
  · by_cases h : Atoi limit = none
    · simp only [h, Option.isNone_none, if_true]; decide
    · have : (Atoi limit).isNone = false := by
        cases ha : Atoi limit with
        | none => exact absurd ha h
        | some _ => rfl
      simp only [this, Bool.false_eq_true, if_false]
      exact Atoi_signedDigits limit h
  · by_cases h : Atoi offset = none
    · simp only [h, Option.isNone_none, if_true]; decide
    · have : (Atoi offset).isNone = false := by
        cases ha : Atoi offset with
        | none => exact absurd ha h
        | some _ => rfl
      simp only [this, Bool.false_eq_true, if_false]
      exact Atoi_signedDigits offset h

/-- The statement that `ShowTablesWithParams` sends for an existing table. -/
theorem ShowTablesWithParams_sql (db : DBHandler) (tableName limit offset : String)
    (hexists : DoesTableExist db tableName = true) :
    (ShowTablesWithParams db tableName limit offset).sql
      = [Stmt.Query (ShowTablesWithParams.sqlQuery tableName
          (ShowTablesWithParams.limitOffset limit offset).1
          (ShowTablesWithParams.limitOffset limit offset).2) []] := by
  unfold ShowTablesWithParams
  simp only [hexists, Bool.not_true, Bool.false_eq_true, if_false]
  split <;> rfl

/-- C3, as the code has it.  For every existing table and every pair of
limit/offset form values, the limit and the offset interpolated into the SELECT
text are each an optional sign (`+` or `-`) followed by one or more decimal
digits; each is the request value itself or the default (`5`, `0`). -/
theorem C3_limit_offset_signed_decimal (db : DBHandler) (tableName limit offset : String)
    (hexists : DoesTableExist db tableName = true) :
    ∃ l o,
      (ShowTablesWithParams db tableName limit offset).sql
        = [Stmt.Query ("SELECT * FROM " ++ tableName ++ " LIMIT  " ++ l ++ " OFFSET " ++ o) []] ∧
      signedDigits l = true ∧ signedDigits o = true ∧
      (l = limit ∨ l = "5") ∧ (o = offset ∨ o = "0") := by
  refine ⟨(ShowTablesWithParams.limitOffset limit offset).1,
    (ShowTablesWithParams.limitOffset limit offset).2,
    ShowTablesWithParams_sql db tableName limit offset hexists,
    (limitOffset_signedDigits limit offset).1, (limitOffset_signedDigits limit offset).2, ?_, ?_⟩
  · unfold ShowTablesWithParams.limitOffset
    by_cases h : (Atoi limit).isNone = true <;> simp [h]
  · unfold ShowTablesWithParams.limitOffset
    by_cases h : (Atoi offset).isNone = true <;> simp [h]

/-- C3 (as the code has it) at the table `items`: `-1` is kept, an injection
attempt is replaced by the default. -/
theorem C3_witness :
    DoesTableExist sampleDB "items" = true ∧
    ∃ l o,
      (ShowTablesWithParams sampleDB "items" "-1" "1;DROP TABLE items").sql
        = [Stmt.Query ("SELECT * FROM " ++ "items" ++ " LIMIT  " ++ l ++ " OFFSET " ++ o) []] ∧
      signedDigits l = true ∧ signedDigits o = true ∧
      (l = "-1" ∨ l = "5") ∧ (o = "1;DROP TABLE items" ∨ o = "0") :=
  ⟨by decide, C3_limit_offset_signed_decimal sampleDB "items" "-1" "1;DROP TABLE items" (by decide)⟩

/-- C3, as stated, fails: the form values `-1` and `+5` pass `strconv.Atoi` and
reach the SELECT text unchanged, and neither is digits only. -/
theorem C3_counterexample :
    DoesTableExist sampleDB "items" = true ∧
    (ShowTablesWithParams sampleDB "items" "-1" "+5").sql
      = [Stmt.Query "SELECT * FROM items LIMIT  -1 OFFSET +5" []] ∧
    ShowTablesWithParams.limitOffset "-1" "+5" = ("-1", "+5") ∧
    digitsOnly "-1" = false ∧ digitsOnly "+5" = false := by
  decide

/-- C4.  For every existing table, the SELECT text of `ShowTablesWithParams`
carries limit `5` when the limit form value is rejected by `strconv.Atoi` and
the form value itself otherwise, and offset `0` when the offset form value is
rejected and the form value itself otherwise, each independently of the other;
the empty (absent) value and `abc` are rejected. -/
theorem C4_limit_offset_defaults (db : DBHandler) (tableName limit offset : String)
    (hexists : DoesTableExist db tableName = true) :
    (ShowTablesWithParams db tableName limit offset).sql
      = [Stmt.Query ("SELECT * FROM " ++ tableName
          ++ " LIMIT  " ++ (if Atoi limit = none then "5" else limit)
          ++ " OFFSET " ++ (if Atoi offset = none then "0" else offset)) []] ∧
    Atoi "" = none ∧ Atoi "abc" = none := by
  refine ⟨?_, by decide, by decide⟩
  rw [ShowTablesWithParams_sql db tableName limit offset hexists]
  unfold ShowTablesWithParams.limitOffset ShowTablesWithParams.sqlQuery
  simp only [Option.isNone_iff_eq_none]

/-- C4 at the table `items` with limit `abc` and offset `10`. -/
theorem C4_witness :
    DoesTableExist sampleDB "items" = true ∧
    ((ShowTablesWithParams sampleDB "items" "abc" "10").sql
      = [Stmt.Query ("SELECT * FROM " ++ "items"
          ++ " LIMIT  " ++ (if Atoi "abc" = none then "5" else "abc")
          ++ " OFFSET " ++ (if Atoi "10" = none then "0" else "10")) []] ∧
    Atoi "" = none ∧ Atoi "abc" = none) :=
  ⟨by decide, C4_limit_offset_defaults sampleDB "items" "abc" "10" (by decide)⟩

/-! ## Type matching on update -/

/-- The type `int` is not text-like, so the two cases of `TypeMatch` are disjoint. -/
theorem isTextType_ne_int (typeName : String) (h : isTextType typeName = true) :
    typeName ≠ "int" := by
  intro e
  subst e
  revert h
  decide

/-- On a text-like column, nil is accepted exactly when `Null` is not `NO`. -/
theorem TypeMatch_text_nil (typeName Null : String) (htext : isTextType typeName = true) :
    TypeMatch typeName GoValue.nil (Null = "NO") = true ↔ Null ≠ "NO" := by
  have hint := isTextType_ne_int typeName htext
  by_cases h : Null = "NO" <;> simp [TypeMatch, hint, htext, h]

/-- C5.  In update validation, where `EditLine` passes `Null == "NO"` as the
third argument of `TypeMatch`, for every text-like column (whose `Null` is
`YES` or `NO`): a nil value is accepted if and only if `Null` is `YES`; a
string value is always accepted; any value that is neither nil nor a string
is rejected. -/
theorem C5_TypeMatch_text (typeName Null : String)
    (htext : isTextType typeName = true)
    (hnull : Null = "YES" ∨ Null = "NO") :
    (TypeMatch typeName GoValue.nil (Null = "NO") = true ↔ Null = "YES") ∧
    (∀ s, TypeMatch typeName (GoValue.string s) (Null = "NO") = true) ∧
    (∀ v, v ≠ GoValue.nil → (∀ s, v ≠ GoValue.string s) →
      TypeMatch typeName v (Null = "NO") = false) := by
  have hint := isTextType_ne_int typeName htext
  refine ⟨?_, ?_, ?_⟩
  · rcases hnull with h | h
    · subst h
      simp [TypeMatch, hint, htext]
    · subst h
      simp [TypeMatch, hint, htext]
  · intro s
    simp [TypeMatch, hint, htext]
  · intro v hv hs
    cases v with
    | nil => exact absurd rfl hv
    | string s => exact absurd rfl (hs s)
    | _ => simp [TypeMatch, hint, htext]

/-- C5 at a non-nullable `varchar(255)` column. -/
theorem C5_witness :
    isTextType "varchar(255)" = true ∧ ("NO" = "YES" ∨ "NO" = "NO") ∧
    ((TypeMatch "varchar(255)" GoValue.nil ("NO" = "NO") = true ↔ "NO" = "YES") ∧
    (∀ s, TypeMatch "varchar(255)" (GoValue.string s) ("NO" = "NO") = true) ∧
    (∀ v, v ≠ GoValue.nil → (∀ s, v ≠ GoValue.string s) →
      TypeMatch "varchar(255)" v ("NO" = "NO") = false)) :=
  ⟨by decide, by decide, C5_TypeMatch_text "varchar(255)" "NO" (by decide) (by decide)⟩

/-- C2 (as the code has it) at the table `items`, with a valid `title` visited
before the primary key `id`. -/
theorem C2_witness :
    DoesTableExist sampleDB "items" = true ∧
    SearchPrimaryKey sampleDB "items" = ("id", true) ∧
    "id" ∉ mapKeys [("title", GoValue.string "a")] ∧
    ∃ name,
      EditLine sampleDB "items" "3"
          (some ([("title", GoValue.string "a")] ++ ("id", GoValue.float64 1) :: []))
        = ⟨[], Reply.Error ("\x7b\"error\":\"field " ++ name ++ " have invalid type\"\x7d") 400⟩ ∧
      ((∀ p ∈ [("title", GoValue.string "a")], rejects sampleDB "items" p.1 p.2 = false) →
        name = "id") ∧
      ((∃ p ∈ [("title", GoValue.string "a")], rejects sampleDB "items" p.1 p.2 = true) →
        ∃ w, (name, w) ∈ [("title", GoValue.string "a")] ∧ rejects sampleDB "items" name w = true) :=
  ⟨by decide, by decide, by decide,
    C2_EditLine_primary_key_in_body sampleDB "items" "3" "id" (GoValue.float64 1)
      [("title", GoValue.string "a")] [] (by decide) (by decide) (by decide)⟩

/-- C2, as stated, fails: on the table `items` with primary key `id`, a body
that holds `id` and, visited before it, a number for the varchar column `title`
is answered with the error naming `title`, not `id`. -/
theorem C2_counterexample :
    DoesTableExist sampleDB "items" = true ∧
    SearchPrimaryKey sampleDB "items" = ("id", true) ∧
    mapGet [("title", GoValue.float64 5), ("id", GoValue.float64 1)] "id" = some (GoValue.float64 1) ∧
    EditLine sampleDB "items" "3" (some [("title", GoValue.float64 5), ("id", GoValue.float64 1)])
      = ⟨[], Reply.Error "\x7b\"error\":\"field title have invalid type\"\x7d" 400⟩ ∧
    EditLine sampleDB "items" "3" (some [("title", GoValue.float64 5), ("id", GoValue.float64 1)])
      ≠ ⟨[], Reply.Error "\x7b\"error\":\"field id have invalid type\"\x7d" 400⟩ := by
  decide

/-- C6 at the table `items`: a valid `description` and a number for `title`. -/
theorem C6_witness :
    DoesTableExist sampleDB "items" = true ∧
    SearchPrimaryKey sampleDB "items" = ("id", true) ∧
    "id" ∉ mapKeys [("description", GoValue.string "d"), ("title", GoValue.float64 5)] ∧
    ∃ p ∈ [("description", GoValue.string "d"), ("title", GoValue.float64 5)],
      ((mapGet (fieldsOf sampleDB "items") p.1).isSome = true ∧
        TypeMatch (fieldParam sampleDB "items" p.1 "Type") p.2
          (fieldParam sampleDB "items" p.1 "Null" = "NO") = false) ∧
      EditLine sampleDB "items" "3"
          (some [("description", GoValue.string "d"), ("title", GoValue.float64 5)])
        = ⟨[], Reply.Error ("\x7b\"error\":\"field " ++ p.1 ++ " have invalid type\"\x7d") 400⟩ :=
  ⟨by decide, by decide, by decide,
    C6_EditLine_type_mismatch sampleDB "items" "3" "id"
      [("description", GoValue.string "d"), ("title", GoValue.float64 5)]
      (by decide) (by decide) (by decide)
      ⟨("title", GoValue.float64 5), by decide, by decide, by decide⟩⟩

/-! ## Unknown tables -/

/-- On a table that is not in the catalog, the list, read, create and delete
handlers reply 404 `{"error":"unknown table"}` and send no statement. -/
theorem unknown_table_siblings (db : DBHandler) (tableName limit offset id : String)
    (objects : Option (GoMap GoValue)) (h : DoesTableExist db tableName = false) :
    ShowTablesWithParams db tableName limit offset = ⟨[], unknownTable⟩ ∧
    ShowLine db tableName id = ⟨[], unknownTable⟩ ∧
    PutNewLine db tableName objects = ⟨[], unknownTable⟩ ∧
    DeleteLine db tableName id = ⟨[], unknownTable⟩ := by
  simp [ShowTablesWithParams, ShowLine, PutNewLine, DeleteLine, h]

/-- On a table without column metadata, `EditLine` replies 404
`{"error":"not found primary key"}` before it looks the table up. -/
theorem EditLine_no_metadata (db : DBHandler) (tableName id : String)
    (objects : Option (GoMap GoValue)) (h : mapGet db.tableFields tableName = none) :
    EditLine db tableName id objects = ⟨[], notFoundPrimaryKey⟩ := by
  simp [EditLine, SearchPrimaryKey, fieldsOf, h, mapKeys, SearchPrimaryKey.loop]

/-- C1 fails on the code for `EditLine`: the table `ghost` is not in the
catalog, and `EditLine` replies 404 `{"error":"not found primary key"}` for
every id and body, while the other four handlers reply
`{"error":"unknown table"}`. -/
theorem C1_EditLine_unknown_table :
    DoesTableExist sampleDB "ghost" = false ∧
    (∀ (id : String) (objects : Option (GoMap GoValue)),
      EditLine sampleDB "ghost" id objects
        = ⟨[], Reply.Error "\x7b\"error\":\"not found primary key\"\x7d" 404⟩) ∧
    (∀ (id : String) (objects : Option (GoMap GoValue)),
      EditLine sampleDB "ghost" id objects
        ≠ ⟨[], Reply.Error "\x7b\"error\":\"unknown table\"\x7d" 404⟩) ∧
    DeleteLine sampleDB "ghost" "3" = ⟨[], Reply.Error "\x7b\"error\":\"unknown table\"\x7d" 404⟩ := by
  have h : ∀ (id : String) (objects : Option (GoMap GoValue)),
      EditLine sampleDB "ghost" id objects
        = ⟨[], Reply.Error "\x7b\"error\":\"not found primary key\"\x7d" 404⟩ :=
    fun id objects => EditLine_no_metadata sampleDB "ghost" id objects (by decide)
  refine ⟨by decide, h, ?_, by decide⟩
  intro id objects
  rw [h id objects]
  decide

/-! ## Create -/

/-- With a nil body the loop of `PutNewLine` panics at the first column that
is non-nullable and not auto_increment. -/
theorem PutNewLine.loop_nil_body (db : DBHandler) (tableName : String) :
    ∀ (l : List String) (st : InsertState), st.objects = none →
      (∃ field ∈ l, fieldParam db tableName field "Extra" ≠ "auto_increment" ∧
        fieldParam db tableName field "Null" = "NO") →
      PutNewLine.loop db tableName l st = none := by
  intro l
  induction l with
  | nil => intro st _ h; obtain ⟨f, hf, _⟩ := h; simp at hf
  | cons field rest ih =>
    intro st hst h
    have hget : objectsGet st.objects field = none := by rw [hst]; rfl
    rw [PutNewLine.loop]
    by_cases hauto : fieldParam db tableName field "Extra" = "auto_increment"
    · simp only [hauto, if_true]
      apply ih st hst
      obtain ⟨f, hf, h1, h2⟩ := h
      rcases List.mem_cons.mp hf with e | hf
      · subst e; exact absurd hauto h1
      · exact ⟨f, hf, h1, h2⟩
    · simp only [hauto, if_false, hget, Option.isNone_none, true_and]
      by_cases hno : fieldParam db tableName field "Null" = "NO"
      · simp only [hno, if_true, hst]
      · have hrest : ∃ f ∈ rest, fieldParam db tableName f "Extra" ≠ "auto_increment" ∧
            fieldParam db tableName f "Null" = "NO" := by
          obtain ⟨f, hf, h1, h2⟩ := h
          rcases List.mem_cons.mp hf with e | hf
          · subst e; exact absurd h2 hno
          · exact ⟨f, hf, h1, h2⟩
        simp only [hno, if_false]
        split
        · exact ih st hst hrest
        · exact ih _ (by simpa [PutNewLine.push] using hst) hrest

/-- On an existing table with a column that is non-nullable and not
auto_increment, `PutNewLine` with a nil body (empty or undecodable request
body) panics and sends no statement. -/
theorem PutNewLine_nil_body (db : DBHandler) (tableName : String)
    (hexists : DoesTableExist db tableName = true)
    (hcol : ∃ field ∈ mapKeys (fieldsOf db tableName),
      fieldParam db tableName field "Extra" ≠ "auto_increment" ∧
      fieldParam db tableName field "Null" = "NO") :
    PutNewLine db tableName none = ⟨[], Reply.Panic⟩ := by
  unfold PutNewLine
  simp only [hexists, Bool.not_true, Bool.false_eq_true, if_false]
  rw [PutNewLine.loop_nil_body db tableName _ _ rfl hcol]

/-- A column whose `Null` is `YES` never reaches the column list, whether the
body holds it or not. -/
theorem PutNewLine.loop_nullable (db : DBHandler) (tableName field : String)
    (rest : List String) (st : InsertState)
    (h : fieldParam db tableName field "Null" = "YES") :
    PutNewLine.loop db tableName (field :: rest) st = PutNewLine.loop db tableName rest st := by
  rw [PutNewLine.loop]
  simp [h]

/-- When every column is nullable or auto_increment the loop of `PutNewLine`
leaves its variables as they were. -/
theorem PutNewLine.loop_all_skipped (db : DBHandler) (tableName : String) :
    ∀ (l : List String) (st : InsertState),
      (∀ field ∈ l, fieldParam db tableName field "Extra" = "auto_increment" ∨
        fieldParam db tableName field "Null" = "YES") →
      PutNewLine.loop db tableName l st = some st := by
  intro l
  induction l with
  | nil => intro st _; rfl
  | cons field rest ih =>
    intro st h
    have hrest := fun f hf => h f (List.mem_cons_of_mem _ hf)
    rcases h field (List.mem_cons_self _ _) with hf | hf
    · rw [PutNewLine.loop]
      simp only [hf, if_true]
      exact ih st hrest
    · rw [PutNewLine.loop_nullable db tableName field rest st hf]
      exact ih st hrest

/-- On an existing table whose columns are all nullable or auto_increment,
`PutNewLine` panics on the slice of the empty column list, whatever the body. -/
theorem PutNewLine_empty_column_list (db : DBHandler) (tableName : String)
    (objects : Option (GoMap GoValue))
    (hexists : DoesTableExist db tableName = true)
    (hcols : ∀ field ∈ mapKeys (fieldsOf db tableName),
      fieldParam db tableName field "Extra" = "auto_increment" ∨
      fieldParam db tableName field "Null" = "YES") :
    PutNewLine db tableName objects = ⟨[], Reply.Panic⟩ := by
  unfold PutNewLine
  simp only [hexists, Bool.not_true, Bool.false_eq_true, if_false]
  rw [PutNewLine.loop_all_skipped db tableName _ _ hcols]
  rfl

/-- C7 fails on the code for a nil body: the column `title` of `items` is
non-nullable, not auto_increment and absent from the empty request body, and
`PutNewLine` panics on the assignment to the nil map instead of building the
INSERT; with the body `{}` it builds the INSERT with the default `""`. -/
theorem C7_PutNewLine_nil_body_panics :
    DoesTableExist sampleDB "items" = true ∧
    fieldParam sampleDB "items" "title" "Null" = "NO" ∧
    fieldParam sampleDB "items" "title" "Extra" ≠ "auto_increment" ∧
    objectsGet none "title" = none ∧
    PutNewLine sampleDB "items" none = ⟨[], Reply.Panic⟩ ∧
    (PutNewLine sampleDB "items" (some [])).sql
      = [Stmt.Exec "INSERT INTO items (title) VALUES ( ?)" [GoValue.string ""]] := by
  decide

/-- C8 fails on the code for a nullable column: the body holds `description`,
a nullable column of `items` that is not auto_increment, and the INSERT that
`PutNewLine` builds has neither the column nor the value. -/
theorem C8_PutNewLine_drops_nullable :
    DoesTableExist sampleDB "items" = true ∧
    mapGet [("title", GoValue.string "a"), ("description", GoValue.string "b")] "description"
      = some (GoValue.string "b") ∧
    fieldParam sampleDB "items" "description" "Extra" ≠ "auto_increment" ∧
    fieldParam sampleDB "items" "description" "Null" = "YES" ∧
    (PutNewLine sampleDB "items"
        (some [("title", GoValue.string "a"), ("description", GoValue.string "b")])).sql
      = [Stmt.Exec "INSERT INTO items (title) VALUES ( ?)" [GoValue.string "a"]] := by
  decide

/-- C10 fails on the code.  On `notes`, whose only column besides the
generated key is nullable, `PutNewLine` panics on the slice of the empty column
list; on `items`, a body without a known column makes `EditLine` send
`UPDATE items SE WHERE id = ?`, which has no `SET` clause. -/
theorem C10_statement_assembly :
    DoesTableExist sampleDB "notes" = true ∧
    PutNewLine sampleDB "notes" (some [("body", GoValue.string "b")]) = ⟨[], Reply.Panic⟩ ∧
    DoesTableExist sampleDB "items" = true ∧
    (EditLine sampleDB "items" "3" (some [("zzz", GoValue.bool true)])).sql
      = [Stmt.Exec "UPDATE items SE WHERE id = ?" [GoValue.string "3"]] := by
  decide

/-! ## Update without a known column -/

/-- Fields that are not columns leave the loop of `EditLine` where it started. -/
theorem EditLine.loop_unknown (db : DBHandler) (tableName keyName : String) :
    ∀ (body : GoMap GoValue) (st : UpdateState), keyName ∉ mapKeys body →
      (∀ p ∈ body, mapGet (fieldsOf db tableName) p.1 = none) →
      EditLine.loop db tableName keyName body st = Except.ok st := by
  intro body
  induction body with
  | nil => intro st _ _; rfl
  | cons p rest ih =>
    intro st hkey hun
    obtain ⟨g, w⟩ := p
    simp only [mapKeys, List.map_cons, List.mem_cons, not_or] at hkey
    have hg : g ≠ keyName := fun e => hkey.1 e.symm
    have hgn : mapGet (fieldsOf db tableName) g = none := hun (g, w) (List.mem_cons_self _ _)
    rw [EditLine.loop]
    simp only [hg, if_false, hgn, Option.isNone_none, if_true]
    exact ih st (by simpa [mapKeys] using hkey.2) (fun p hp => hun p (List.mem_cons_of_mem _ hp))

/-- The slice cuts the `T` of a text that ends in ` SET`. -/
theorem sliceEnd_SET (s : String) : sliceEnd (s ++ " SET") = some (s ++ " SE") := by
  have h : (s ++ " SET").data = (s.data ++ [' ', 'S', 'E']) ++ ['T'] := by
    simp [String.data_append]
  have h2 : (s ++ " SE").data = s.data ++ [' ', 'S', 'E'] := by
    simp [String.data_append]
  unfold sliceEnd
  rw [h, List.dropLast_concat]
  simp only [List.append_eq_nil, and_false, if_false, reduceCtorEq]
  rw [← h2]

/-- On an existing table with a primary key, a body without the primary key
and without any known column makes `EditLine` send an UPDATE whose text has
lost the last letter of `SET` and has no `SET` clause. -/
theorem EditLine_no_known_field (db : DBHandler) (tableName id keyName : String)
    (body : GoMap GoValue)
    (hexists : DoesTableExist db tableName = true)
    (hkey : SearchPrimaryKey db tableName = (keyName, true))
    (hbody : keyName ∉ mapKeys body)
    (hun : ∀ p ∈ body, mapGet (fieldsOf db tableName) p.1 = none) :
    (EditLine db tableName id (some body)).sql
      = [Stmt.Exec ("UPDATE " ++ tableName ++ " SE" ++ (" WHERE " ++ keyName ++ " = ?"))
          [GoValue.string id]] := by
  unfold EditLine
  simp only [hkey, hexists, Bool.not_true, Bool.false_eq_true, if_false, Option.getD_some]
  rw [EditLine.loop_unknown db tableName keyName body _ hbody hun]
  simp only [sliceEnd_SET]
  split <;> simp

end DbExplorer
